import Mathlib

/-!
Verification of the PlantLeafDisease repository core
(`core/ml_model.py`, `core/views.py`, `core/inference_subprocess.py`).

Shallow embedding conventions:
* Calls into external libraries (Keras model loading and inference, PIL image
  decoding, `json.load`) are modeled by explicit parameters of type
  `Except String _` / `Option _`: the `error`/`none` case stands for the call
  raising an exception, which the Python code catches.
* Python exceptions that a function catches and converts into a returned value
  are modeled by total functions returning an error variant; "never raises"
  corresponds to the Lean function being total with a plain result type.
* Machine floats carried through the code (confidence scores) are modeled as
  rationals; no claim depends on floating-point rounding.
-/

set_option maxHeartbeats 1000000

namespace PlantLeafDisease

/-- The class-indices label map loaded from JSON: stringified class index to
label name (`{"0": "Tomato___healthy", ...}`), as an association list. -/
abbrev LabelMap := List (String × String)

/-- An opaque loaded Keras model handle, carrying exactly what the repository
code reads off it: the declared input tensor shape (a list of dimensions where
`none` is TensorFlow's unknown/batch dimension `None`; the whole shape is
`none` when the model exposes neither `input_shape` nor a usable
`inputs[0].shape`, and for a multi-input model the first nested shape is
taken, mirroring `input_shape[0]` in `ml_model.py` lines 79-80), whether the
name-substring scan of `ml_model.py` lines 161-165 recognizes it as an
EfficientNet, the external `efficientnet.preprocess_input` for that branch
(`none` = the import or the call raised), and the forward pass
`model.predict` restricted to a batch of one: preprocessed pixels in, the
row `predictions[0]` of output scores out. -/
structure Model where
  input_shape : Option (List (Option Nat))
  isEfficientNet : Bool
  effPre : List Rat → Option (List Rat)
  forward : List Rat → List Rat

/-- The mutable state of a `PlantDiseaseDetector` instance
(`ml_model.py` lines 26-36): loaded model handle, path it was loaded from,
class-indices label map, and target image size `(width, height)`. -/
structure DetectorState where
  model : Option Model
  model_path : Option String
  class_indices : Option LabelMap
  image_size : Nat × Nat

/-- `PlantDiseaseDetector.__init__` (`ml_model.py` lines 26-36). -/
def detectorInit (model_path : Option String) : DetectorState :=
  { model := none
    model_path := model_path
    class_indices := none
    image_size := (224, 224) }

/-- The batch-dimension strip of `ml_model.py` lines 86-88: the leading
dimension is removed exactly when it is `None`. -/
def stripBatch (shape : List (Option Nat)) : List (Option Nat) :=
  match shape with
  | none :: rest => rest
  | _ => shape

/-- The input-size inference of `ml_model.py` lines 77-102 (identical logic at
`inference_subprocess.py` lines 56-66): given the declared input shape and the
current `image_size`, look for a three-element shape after stripping a leading
`None` batch dimension; if its last element is 1 or 3 take channels-last
`[H, W, C]` and set `(w, h)`; otherwise if its first element is 1 or 3 take
channels-first `[C, H, W]` and set `(w, h)`; in every other case — including
`int(None)` raising inside the guarded block — keep the current size. -/
def inferImageSize (input_shape : Option (List (Option Nat))) (cur : Nat × Nat) :
    Nat × Nat :=
  match input_shape with
  | none => cur
  | some shape =>
    if 3 ≤ shape.length then
      let sl := stripBatch shape
      if sl.length = 3 ∧ (sl.getLast? = some (some 1) ∨ sl.getLast? = some (some 3)) then
        match sl[0]?, sl[1]? with
        | some (some h), some (some w) => (w, h)
        | _, _ => cur
      else if sl.length = 3 ∧ (sl[0]? = some (some 1) ∨ sl[0]? = some (some 3)) then
        match sl[1]?, sl[2]? with
        | some (some h), some (some w) => (w, h)
        | _, _ => cur
      else cur
    else cur

/-- `PlantDiseaseDetector.load_model` (`ml_model.py` lines 38-118).
`loadRes` is the outcome of the external `keras.models.load_model(model_path)`
call: `.error e` when it raises (with message `e`), `.ok m` when it returns a
model. On success the handle and the stored path are replaced and the image
size is re-inferred from the model's declared input shape (all inference
failures are caught, lines 100-105, leaving the size unchanged); on failure
nothing is touched and `False` is returned (lines 115-118). Returns
(the `bool` result, the detector state afterwards). -/
def load_model (loadRes : Except String Model) (model_path : String)
    (s : DetectorState) : Bool × DetectorState :=
  match loadRes with
  | .error _ => (false, s)
  | .ok m =>
    let s1 : DetectorState := { s with model := some m, model_path := some model_path }
    (true, { s1 with image_size := inferImageSize m.input_shape s1.image_size })

/-- `PlantDiseaseDetector.load_class_indices` (`ml_model.py` lines 120-132).
`readRes` is the outcome of `open(json_path)` + `json.load`: `.error` when
either raises (missing file, malformed JSON). Any failure is caught and the
state is left unchanged; the method returns nothing. -/
def load_class_indices (readRes : Except String LabelMap) (s : DetectorState) :
    DetectorState :=
  match readRes with
  | .error _ => s
  | .ok ci => { s with class_indices := some ci }

/-- `PlantDiseaseDetector.preprocess_image` (`ml_model.py` lines 134-188).
`decoded` stands for the external PIL pipeline `Image.open` / `convert('RGB')`
/ `resize(self.image_size)` / `np.array(...).astype('float32')`: `none` when
any of it raises (undecodable file), otherwise the flattened resized RGB pixel
array. When the loaded model is recognized as an EfficientNet its external
`preprocess_input` is tried (its `none` = import failure or raise, falling
back to the default); otherwise pixels are scaled by `1/255`. The trailing
`np.expand_dims` batch dimension is implicit in `Model.forward` taking the
single image. Returns `none` exactly when the Python code returns `None`
(lines 186-188). -/
def preprocess_image (s : DetectorState) (decoded : Option (List Rat)) :
    Option (List Rat) :=
  match decoded with
  | none => none
  | some arr =>
    let pre : Option (List Rat) :=
      match s.model with
      | some m => if m.isEfficientNet then m.effPre arr else none
      | none => none
    match pre with
    | none => some (arr.map (fun v => v / 255))
    | some p => some p

/-- The scan of `np.argmax`: walk the remaining list carrying the best value
seen and its index; a later element replaces the best only when strictly
greater, so the first occurrence of the maximum wins, as in NumPy. -/
def argmaxP : List Rat → Rat × Nat → Nat → Rat × Nat
  | [], acc, _ => acc
  | y :: ys, acc, i => if acc.1 < y then argmaxP ys (y, i) (i + 1) else argmaxP ys acc (i + 1)

/-- Result dictionary of `PlantDiseaseDetector.predict` (`ml_model.py` lines
224-231): either the success record {disease, confidence,
all_predictions: {class_index, confidence_scores}} or an `{"error": msg}`
dictionary. -/
inductive PredOut where
  | ok (disease : String) (confidence : Rat) (class_index : Nat) (scores : List Rat)
  | err (msg : String)
deriving Repr, DecidableEq

/-- The label lookup of `ml_model.py` lines 217-222 (same logic at
`inference_subprocess.py` lines 91-93): "Unknown" when `self.class_indices`
is falsy (either `None` or the empty dict), otherwise
`self.class_indices.get(str(idx), "Unknown")`. -/
def labelFor (ci? : Option LabelMap) (idx : Nat) : String :=
  match ci? with
  | none => "Unknown"
  | some ci => if ci = [] then "Unknown" else (ci.lookup (toString idx)).getD "Unknown"

/-- `PlantDiseaseDetector.predict` (`ml_model.py` lines 190-234). With no
loaded model it returns the model-not-loaded error dictionary without touching
the image (lines 200-201). Otherwise it preprocesses (failure = lines
207-208), runs the forward pass, and takes `np.argmax` of the score row —
which on an empty row raises, caught by lines 233-234 into a
"Prediction failed" error. -/
def predict (s : DetectorState) (decoded : Option (List Rat)) : PredOut :=
  match s.model with
  | none => .err "Model not loaded. Please load a model first."
  | some m =>
    match preprocess_image s decoded with
    | none => .err "Failed to process image"
    | some x =>
      match m.forward x with
      | [] => .err "Prediction failed: attempt to get argmax of an empty sequence"
      | p :: rest =>
        let idx := (argmaxP rest (p, 0) 1).2
        .ok (labelFor s.class_indices idx) ((p :: rest).getD idx 0) idx (p :: rest)

/-- The JSON body and HTTP status produced by the `health` view
(`views.py` lines 31-42). -/
structure HealthResponse where
  statusText : String
  model_loaded : Bool
  statusCode : Nat
deriving Repr, DecidableEq

/-- The `health` view (`views.py` lines 31-42), as a function of the singleton
detector's state: 200 `{"status": "ok", "model_loaded": true}` when a model is
held, else 503 `{"status": "starting", "model_loaded": false}`. -/
def health (s : DetectorState) : HealthResponse :=
  let model_loaded := s.model.isSome
  if model_loaded then
    { statusText := "ok", model_loaded := true, statusCode := 200 }
  else
    { statusText := "starting", model_loaded := false, statusCode := 503 }

/-!
The subprocess inference runner, `core/inference_subprocess.py`.

The script as committed does not parse: the `try:` opened at line 43 inside
`_LocalDetector.load_model` has no matching `except`/`finally` clause, which
Python rejects with `SyntaxError: expected 'except' or 'finally' block` at
line 68. Consequently every invocation of the script aborts during parsing,
before `main` runs: it prints a traceback to stderr, writes nothing at all to
stdout, and exits with status 1 — contradicting the script's own docstring
("prints a single JSON object to stdout with the result or an error"). The
definitions below embed the script's evident intent: the same code with the
missing `except Exception: pass` restored, mirroring the identical guarded
block in `ml_model.py` lines 100-105 from which it was copied. Theorems about
these definitions are therefore theorems about the intended script, not about
the committed, unparseable one.
-/

/-- One JSON object printed by the child to stdout (`json.dumps` of either an
error dictionary or the result of `_LocalDetector.predict`). -/
inductive JOut where
  | errObj (msg : String)
  | resObj (disease : String) (confidence : Rat) (class_index : Nat)
deriving Repr, DecidableEq

/-- Environment of one invocation of `inference_subprocess.py`: the full
`sys.argv` (index 0 is the script name), whether the deferred
TensorFlow/PIL imports succeed (lines 25-31; `some e` = raised with message
`e`), the `os.path.exists` view of the filesystem, and the external calls —
Keras load, `open`+`json.load` of the label map (`none` = raised), PIL
decode+resize of the image (`.error e` = raised inside
`_LocalDetector.preprocess`). -/
structure ChildEnv where
  argv : List String
  importError : Option String
  fileExists : String → Bool
  loadModel : String → Except String Model
  readLabels : String → Option LabelMap
  decodeImage : String → Except String (List Rat)

/-- Observable outcome of one child invocation: the JSON objects written to
stdout in order, the exit status, and (for analysis) whether a model was
successfully loaded. -/
structure ChildRun where
  prints : List JOut
  exitCode : Nat
  modelLoaded : Bool
deriving Repr, DecidableEq

/-- The label-map step of `main` (lines 105-109 with `_LocalDetector.
load_class_indices`, lines 68-73): loaded only when a path was given and the
file exists; every failure is swallowed, leaving `None`. -/
def childLoadLabels (env : ChildEnv) (path? : Option String) : Option LabelMap :=
  match path? with
  | some p => if env.fileExists p then env.readLabels p else none
  | none => none

/-- `_LocalDetector.predict` (lines 84-94, with `preprocess`, lines 75-82),
as called by `main` lines 111-117: `.error e` stands for an exception escaping
`detector.predict` (caught by `main` into the exit-5 path), `.ok j` for the
returned dictionary. With no model it returns the `Model not loaded` error
dictionary before touching the image. `np.argmax` of an empty score row
raises, hence the `.error` there. -/
def childPredict (m? : Option Model) (ci : Option LabelMap)
    (decoded : Except String (List Rat)) : Except String JOut :=
  match m? with
  | none => .ok (.errObj "Model not loaded")
  | some m =>
    match decoded with
    | .error e => .error e
    | .ok arr =>
      let x := arr.map (fun v => v / 255)
      match m.forward x with
      | [] => .error "attempt to get argmax of an empty sequence"
      | p :: rest =>
        let idx := (argmaxP rest (p, 0) 1).2
        .ok (.resObj (labelFor ci idx) ((p :: rest).getD idx 0) idx)

/-- Tail of `main` after the model-loading step (lines 105-117): load labels,
predict, print the single resulting JSON object, exit 0 — or print the
`Prediction failed` error and exit 5 when `detector.predict` raised. -/
def childRest (env : ChildEnv) (image_path : String) (m? : Option Model)
    (ci_path : Option String) : ChildRun :=
  match childPredict m? (childLoadLabels env ci_path) (env.decodeImage image_path) with
  | .ok j => { prints := [j], exitCode := 0, modelLoaded := m?.isSome }
  | .error e =>
    { prints := [.errObj ("Prediction failed: " ++ e)], exitCode := 5
      modelLoaded := m?.isSome }

/-- `main` of `inference_subprocess.py` (lines 14-117), with the line-43
`try:` repaired as described above. Arguments: `sys.argv[1]` is the image
path (missing → `image_path required`, exit 2); `sys.argv[2]`/`sys.argv[3]`
are the model and label-map paths, with the empty string treated as absent
(lines 21-22). Imports failing → exit 3; the model is loaded only when a path
was given and exists, a raising load → exit 4. There are no process-wide
default paths: with the model argument absent nothing is loaded. -/
def childMain (env : ChildEnv) : ChildRun :=
  match env.argv[1]? with
  | none => { prints := [.errObj "image_path required"], exitCode := 2, modelLoaded := false }
  | some image_path =>
    let model_path : Option String :=
      match env.argv[2]? with
      | some p => if p = "" then none else some p
      | none => none
    let ci_path : Option String :=
      match env.argv[3]? with
      | some p => if p = "" then none else some p
      | none => none
    match env.importError with
    | some e =>
      { prints := [.errObj ("Failed to import TF/PIL: " ++ e)], exitCode := 3
        modelLoaded := false }
    | none =>
      match model_path with
      | some mp =>
        if env.fileExists mp then
          match env.loadModel mp with
          | .error e =>
            { prints := [.errObj ("Failed to load model: " ++ e)], exitCode := 4
              modelLoaded := false }
          | .ok m => childRest env image_path (some m) ci_path
        else childRest env image_path none ci_path
      | none => childRest env image_path none ci_path

/-!
The parent-side subprocess runner.

`views.py` line 12 imports `predict_via_subprocess` from `core.ml_model` and
line 82 calls it, but the committed `ml_model.py` does not define it (nor
`predict_via_worker` / `get_inference_pool`): the function belongs to a
revision of `ml_model.py` that is not among the provided sources. It is
therefore modelled from the spec (§4.3) rather than translated.
-/

/-- Error kinds the parent reports for a failed child invocation. -/
inductive SubprocErrKind where
  | timeout
  | subprocessFailure
deriving Repr, DecidableEq

/-- What the launched child process was observed to do: either it failed to
exit within `timeout` seconds, or it exited with a status code having written
the given text to stdout. -/
inductive ChildOutcome where
  | timedOut
  | exited (code : Nat) (stdout : String)
deriving Repr, DecidableEq

/-- Structured value returned by the parent runner: the child's stdout parsed
as JSON, or an `{error: ...}` result of the given kind. -/
inductive ParentResult (α : Type) where
  | parsed (v : α)
  | errorResult (kind : SubprocErrKind) (msg : String)
deriving Repr, DecidableEq

/-- Modelled from the spec: `predict_via_subprocess(image_path,
timeout_seconds, model_path)` — imported at `views.py` line 12 and called at
line 82, but absent from the committed `ml_model.py`. Per spec §4.3 the parent
launches the child and then: captures stdout and returns it parsed as JSON
(`parse`, `none` = not valid JSON); on timeout terminates the child
(the returned `Bool` records that termination) and returns a Timeout error;
on a non-zero exit status or unparseable output returns a SubprocessFailure
error carrying the available diagnostic text; in every case the result is a
returned `ParentResult` value, never a propagated exception. The arguments of
the call are `image_path`/`timeout`/`model_path`; `outcome` abstracts the
observed behaviour of the launched child. -/
def predict_via_subprocess {α : Type} (parse : String → Option α)
    (image_path : String) (timeout : Nat) (model_path : Option String)
    (outcome : ChildOutcome) : ParentResult α × Bool :=
  match outcome with
  | .timedOut =>
    (.errorResult .timeout
      ("Prediction timed out after " ++ toString timeout ++ " seconds"), true)
  | .exited code stdout =>
    if code ≠ 0 then (.errorResult .subprocessFailure stdout, false)
    else
      match parse stdout with
      | none => (.errorResult .subprocessFailure stdout, false)
      | some v => (.parsed v, false)

/-!
The lazy singleton `get_detector` (`ml_model.py` lines 254-271).

```
_detector_instance = None
_detector_lock = threading.Lock()

def get_detector():
    global _detector_instance
    if _detector_instance is None:
        with _detector_lock:
            if _detector_instance is None:
                _detector_instance = PlantDiseaseDetector()
    return _detector_instance
```

Concurrent execution is modeled as an interleaving transition system: each
thread runs `get_detector` step by step against the shared cell
`_detector_instance`, the lock, and a counter of `PlantDiseaseDetector()`
constructions; constructed instances are identified by the value of that
counter at construction time, so "reference-identical" is equality of these
identifiers. -/

/-- Program counter of one thread inside `get_detector`: about to perform the
outer `None` check; waiting to acquire `_detector_lock`; holding the lock,
about to perform the inner check; about to construct and assign; about to
release the lock leaving the `with` block; about to perform the final
`return _detector_instance` read; or returned with the read value. -/
inductive PC where
  | start
  | acquire
  | innerCheck
  | construct
  | release
  | finalRead
  | done (r : Option Nat)
deriving Repr, DecidableEq

/-- Shared state of the process: the `_detector_instance` cell (instance
identifiers are `Nat`), the holder of `_detector_lock`, how many times the
`PlantDiseaseDetector` constructor has run, and every thread's position. -/
structure GState where
  instanceVal : Option Nat
  lockHolder : Option Nat
  constructed : Nat
  pc : Nat → PC

/-- Process start: `_detector_instance = None`, lock free, nothing
constructed, every thread at the head of `get_detector`. -/
def initState : GState :=
  { instanceVal := none, lockHolder := none, constructed := 0, pc := fun _ => .start }

/-- One interleaving step: some thread `t` executes the next atomic action of
`get_detector`. Reads and writes of `_detector_instance` are individually
atomic; acquiring the lock succeeds only when it is free; `return _detector_instance`
is a separate re-read of the global, reached both when the outer check sees an
instance (fast path) and after the `with` block exits. -/
inductive Step : GState → GState → Prop where
  | outerSome (s : GState) (t : Nat) (v : Nat) :
      s.pc t = .start → s.instanceVal = some v →
      Step s { s with pc := Function.update s.pc t .finalRead }
  | outerNone (s : GState) (t : Nat) :
      s.pc t = .start → s.instanceVal = none →
      Step s { s with pc := Function.update s.pc t .acquire }
  | acquireLock (s : GState) (t : Nat) :
      s.pc t = .acquire → s.lockHolder = none →
      Step s { s with lockHolder := some t, pc := Function.update s.pc t .innerCheck }
  | innerSome (s : GState) (t : Nat) (v : Nat) :
      s.pc t = .innerCheck → s.instanceVal = some v →
      Step s { s with pc := Function.update s.pc t .release }
  | innerNone (s : GState) (t : Nat) :
      s.pc t = .innerCheck → s.instanceVal = none →
      Step s { s with pc := Function.update s.pc t .construct }
  | doConstruct (s : GState) (t : Nat) :
      s.pc t = .construct →
      Step s { s with instanceVal := some s.constructed,
                      constructed := s.constructed + 1,
                      pc := Function.update s.pc t .release }
  | releaseLock (s : GState) (t : Nat) :
      s.pc t = .release →
      Step s { s with lockHolder := none, pc := Function.update s.pc t .finalRead }
  | finalReturn (s : GState) (t : Nat) :
      s.pc t = .finalRead →
      Step s { s with pc := Function.update s.pc t (.done s.instanceVal) }

/-- States the process can reach from `initState` by interleaved execution. -/
def Reachable (s : GState) : Prop := Relation.ReflTransGen Step initState s

/-- Inductive invariant of the `get_detector` system. -/
structure Inv (s : GState) : Prop where
  con_le : s.constructed ≤ 1
  inst_none : s.instanceVal = none → s.constructed = 0
  inst_some : ∀ v, s.instanceVal = some v → v = 0 ∧ s.constructed = 1
  crit : ∀ t, (s.pc t = .innerCheck ∨ s.pc t = .construct ∨ s.pc t = .release) →
    s.lockHolder = some t
  construct_none : ∀ t, s.pc t = .construct → s.instanceVal = none
  release_some : ∀ t, s.pc t = .release → ∃ v, s.instanceVal = some v
  final_some : ∀ t, s.pc t = .finalRead → ∃ v, s.instanceVal = some v
  done_val : ∀ t r, s.pc t = .done r → r = some 0

theorem inv_init : Inv initState := by
  constructor <;> simp [initState]

theorem inv_step {s s' : GState} (hInv : Inv s) (hStep : Step s s') : Inv s' := by
  cases hStep with
  | outerSome t v hpc hv =>
    refine ⟨hInv.con_le, hInv.inst_none, hInv.inst_some, ?_, ?_, ?_, ?_, ?_⟩
    · intro t2 h
      by_cases ht : t2 = t <;> simp [Function.update_apply, ht] at h
      exact hInv.crit t2 h
    · intro t2 h
      by_cases ht : t2 = t <;> simp [Function.update_apply, ht] at h
      exact hInv.construct_none t2 h
    · intro t2 h
      by_cases ht : t2 = t <;> simp [Function.update_apply, ht] at h
      exact hInv.release_some t2 h
    · intro t2 h
      by_cases ht : t2 = t
      · exact ⟨v, hv⟩
      · simp [Function.update_apply, ht] at h
        exact hInv.final_some t2 h
    · intro t2 r h
      by_cases ht : t2 = t <;> simp [Function.update_apply, ht] at h
      exact hInv.done_val t2 r h
  | outerNone t hpc hv =>
    refine ⟨hInv.con_le, hInv.inst_none, hInv.inst_some, ?_, ?_, ?_, ?_, ?_⟩
    · intro t2 h
      by_cases ht : t2 = t <;> simp [Function.update_apply, ht] at h
      exact hInv.crit t2 h
    · intro t2 h
      by_cases ht : t2 = t <;> simp [Function.update_apply, ht] at h
      exact hInv.construct_none t2 h
    · intro t2 h
      by_cases ht : t2 = t <;> simp [Function.update_apply, ht] at h
      exact hInv.release_some t2 h
    · intro t2 h
      by_cases ht : t2 = t <;> simp [Function.update_apply, ht] at h
      exact hInv.final_some t2 h
    · intro t2 r h
      by_cases ht : t2 = t <;> simp [Function.update_apply, ht] at h
      exact hInv.done_val t2 r h
  | acquireLock t hpc hl =>
    refine ⟨hInv.con_le, hInv.inst_none, hInv.inst_some, ?_, ?_, ?_, ?_, ?_⟩
    · intro t2 h
      by_cases ht : t2 = t
      · simp [ht]
      · exfalso
        have h2 : s.pc t2 = .innerCheck ∨ s.pc t2 = .construct ∨ s.pc t2 = .release := by
          simpa [Function.update_apply, ht] using h
        have := hInv.crit t2 h2
        rw [hl] at this
        exact Option.noConfusion this
    · intro t2 h
      by_cases ht : t2 = t <;> simp [Function.update_apply, ht] at h
      exact hInv.construct_none t2 h
    · intro t2 h
      by_cases ht : t2 = t <;> simp [Function.update_apply, ht] at h
      exact hInv.release_some t2 h
    · intro t2 h
      by_cases ht : t2 = t <;> simp [Function.update_apply, ht] at h
      exact hInv.final_some t2 h
    · intro t2 r h
      by_cases ht : t2 = t <;> simp [Function.update_apply, ht] at h
      exact hInv.done_val t2 r h
  | innerSome t v hpc hv =>
    have hlock := hInv.crit t (Or.inl hpc)
    refine ⟨hInv.con_le, hInv.inst_none, hInv.inst_some, ?_, ?_, ?_, ?_, ?_⟩
    · intro t2 h
      by_cases ht : t2 = t
      · subst ht; exact hlock
      · refine hInv.crit t2 ?_
        simpa [Function.update_apply, ht] using h
    · intro t2 h
      by_cases ht : t2 = t <;> simp [Function.update_apply, ht] at h
      exact hInv.construct_none t2 h
    · intro t2 h
      by_cases ht : t2 = t
      · exact ⟨v, hv⟩
      · simp [Function.update_apply, ht] at h
        exact hInv.release_some t2 h
    · intro t2 h
      by_cases ht : t2 = t <;> simp [Function.update_apply, ht] at h
      exact hInv.final_some t2 h
    · intro t2 r h
      by_cases ht : t2 = t <;> simp [Function.update_apply, ht] at h
      exact hInv.done_val t2 r h
  | innerNone t hpc hv =>
    have hlock := hInv.crit t (Or.inl hpc)
    refine ⟨hInv.con_le, hInv.inst_none, hInv.inst_some, ?_, ?_, ?_, ?_, ?_⟩
    · intro t2 h
      by_cases ht : t2 = t
      · subst ht; exact hlock
      · refine hInv.crit t2 ?_
        simpa [Function.update_apply, ht] using h
    · intro t2 h
      by_cases ht : t2 = t
      · exact hv
      · simp [Function.update_apply, ht] at h
        exact hInv.construct_none t2 h
    · intro t2 h
      by_cases ht : t2 = t <;> simp [Function.update_apply, ht] at h
      exact hInv.release_some t2 h
    · intro t2 h
      by_cases ht : t2 = t <;> simp [Function.update_apply, ht] at h
      exact hInv.final_some t2 h
    · intro t2 r h
      by_cases ht : t2 = t <;> simp [Function.update_apply, ht] at h
      exact hInv.done_val t2 r h
  | doConstruct t hpc =>
    have hlock := hInv.crit t (Or.inr (Or.inl hpc))
    have hnone := hInv.construct_none t hpc
    have hzero := hInv.inst_none hnone
    refine ⟨by show s.constructed + 1 ≤ 1; omega, ?_, ?_, ?_, ?_, ?_, ?_, ?_⟩
    · intro h; exact absurd h (by simp)
    · intro v hv
      simp only [Option.some.injEq] at hv
      exact ⟨by omega, by show s.constructed + 1 = 1; omega⟩
    · intro t2 h
      by_cases ht : t2 = t
      · subst ht; exact hlock
      · refine hInv.crit t2 ?_
        simpa [Function.update_apply, ht] using h
    · intro t2 h
      by_cases ht : t2 = t
      · simp [Function.update_apply, ht] at h
      · simp [Function.update_apply, ht] at h
        exfalso
        have h2 := hInv.crit t2 (Or.inr (Or.inl h))
        rw [hlock] at h2
        injection h2 with hh
        exact ht hh.symm
    · intro t2 _
      exact ⟨s.constructed, rfl⟩
    · intro t2 h
      by_cases ht : t2 = t
      · exact ⟨s.constructed, rfl⟩
      · simp [Function.update_apply, ht] at h
        exfalso
        obtain ⟨v, hv⟩ := hInv.final_some t2 h
        rw [hnone] at hv
        exact Option.noConfusion hv
    · intro t2 r h
      by_cases ht : t2 = t <;> simp [Function.update_apply, ht] at h
      exact hInv.done_val t2 r h
  | releaseLock t hpc =>
    have hsome := hInv.release_some t hpc
    refine ⟨hInv.con_le, hInv.inst_none, hInv.inst_some, ?_, ?_, ?_, ?_, ?_⟩
    · intro t2 h
      by_cases ht : t2 = t
      · subst ht; simp [Function.update_apply] at h
      · exfalso
        have h2 : s.pc t2 = .innerCheck ∨ s.pc t2 = .construct ∨ s.pc t2 = .release := by
          simpa [Function.update_apply, ht] using h
        have hl2 := hInv.crit t2 h2
        rw [hInv.crit t (Or.inr (Or.inr hpc))] at hl2
        injection hl2 with hh
        exact ht hh.symm
    · intro t2 h
      by_cases ht : t2 = t <;> simp [Function.update_apply, ht] at h
      exact hInv.construct_none t2 h
    · intro t2 h
      by_cases ht : t2 = t <;> simp [Function.update_apply, ht] at h
      exact hInv.release_some t2 h
    · intro t2 h
      by_cases ht : t2 = t
      · exact hsome
      · simp [Function.update_apply, ht] at h
        exact hInv.final_some t2 h
    · intro t2 r h
      by_cases ht : t2 = t <;> simp [Function.update_apply, ht] at h
      exact hInv.done_val t2 r h
  | finalReturn t hpc =>
    have hsome := hInv.final_some t hpc
    refine ⟨hInv.con_le, hInv.inst_none, hInv.inst_some, ?_, ?_, ?_, ?_, ?_⟩
    · intro t2 h
      by_cases ht : t2 = t <;> simp [Function.update_apply, ht] at h
      exact hInv.crit t2 h
    · intro t2 h
      by_cases ht : t2 = t <;> simp [Function.update_apply, ht] at h
      exact hInv.construct_none t2 h
    · intro t2 h
      by_cases ht : t2 = t <;> simp [Function.update_apply, ht] at h
      exact hInv.release_some t2 h
    · intro t2 h
      by_cases ht : t2 = t <;> simp [Function.update_apply, ht] at h
      exact hInv.final_some t2 h
    · intro t2 r h
      by_cases ht : t2 = t
      · simp [Function.update_apply, ht] at h
        obtain ⟨v, hv⟩ := hsome
        obtain ⟨hv0, _⟩ := hInv.inst_some v hv
        subst h
        rw [hv, hv0]
      · simp [Function.update_apply, ht] at h
        exact hInv.done_val t2 r h

theorem reachable_inv {s : GState} (h : Reachable s) : Inv s := by
  induction h with
  | refl => exact inv_init
  | tail _ hstep ih => exact inv_step ih hstep

/-!
Correctness of the `np.argmax` scan `argmaxP`.
-/

/-- Invariant of the `argmaxP` scan over a full list: if the accumulator holds
a value found at its recorded index and dominating every element before
position `i`, and `ys` is the rest of the list from position `i`, then the
final accumulator holds a value found at its recorded index that dominates
every element of the list. -/
theorem argmaxP_spec (ys : List Rat) : ∀ (full : List Rat) (i : Nat) (b : Rat) (best : Nat),
    full.drop i = ys →
    full[best]? = some b →
    (∀ j, j < i → ∀ x : Rat, full[j]? = some x → x ≤ b) →
    full[(argmaxP ys (b, best) i).2]? = some (argmaxP ys (b, best) i).1 ∧
      (∀ (j : Nat) (x : Rat), full[j]? = some x → x ≤ (argmaxP ys (b, best) i).1) := by
  induction ys with
  | nil =>
    intro full i b best hdrop hb hpre
    refine ⟨hb, ?_⟩
    intro j x hx
    have hlen : full.length ≤ i := by
      have h1 := congrArg List.length hdrop
      simp only [List.length_drop, List.length_nil] at h1
      omega
    have hj : j < full.length := by
      by_contra hle
      push_neg at hle
      rw [List.getElem?_eq_none hle] at hx
      exact Option.noConfusion hx
    exact hpre j (by omega) x hx
  | cons y ys ih =>
    intro full i b best hdrop hb hpre
    have hgi : full[i]? = some y := by
      have h0 : (full.drop i)[0]? = some y := by rw [hdrop]; simp
      rwa [List.getElem?_drop, Nat.add_zero] at h0
    have hdrop1 : full.drop (i + 1) = ys := by
      have h1 : (full.drop i).drop 1 = full.drop (i + 1) := List.drop_drop 1 i full
      rw [hdrop] at h1
      simpa using h1.symm
    by_cases hlt : b < y
    · have harg : argmaxP (y :: ys) (b, best) i = argmaxP ys (y, i) (i + 1) := by
        simp [argmaxP, hlt]
      rw [harg]
      refine ih full (i + 1) y i hdrop1 hgi ?_
      intro j hj x hx
      rcases Nat.lt_succ_iff_lt_or_eq.mp hj with h | h
      · exact le_trans (hpre j h x hx) (le_of_lt hlt)
      · subst h
        rw [hgi] at hx
        injection hx with hh
        exact le_of_eq hh.symm
    · have harg : argmaxP (y :: ys) (b, best) i = argmaxP ys (b, best) (i + 1) := by
        simp [argmaxP, hlt]
      rw [harg]
      refine ih full (i + 1) b best hdrop1 hb ?_
      intro j hj x hx
      rcases Nat.lt_succ_iff_lt_or_eq.mp hj with h | h
      · exact hpre j h x hx
      · subst h
        rw [hgi] at hx
        injection hx with hh
        rw [← hh]
        exact le_of_not_lt hlt

/-!
Concrete demonstration objects used by the witness theorems.
-/

/-- A concrete loaded model: 224×224×3 channels-last input, not an
EfficientNet, forward pass constantly `[1/10, 7/10, 1/5]`. -/
def demoModel : Model :=
  { input_shape := some [none, some 224, some 224, some 3]
    isEfficientNet := false
    effPre := fun _ => none
    forward := fun _ => [1/10, 7/10, 1/5] }

/-- A detector state holding `demoModel` and a three-class label map. -/
def demoState : DetectorState :=
  { model := some demoModel
    model_path := some "model.keras"
    class_indices := some [("0", "healthy"), ("1", "rust"), ("2", "blight")]
    image_size := (224, 224) }

/-- `demoState` without any label map loaded. -/
def demoStateNoLabels : DetectorState :=
  { demoState with class_indices := none }

/-!
Claim theorems.
-/

/-- C3: for every decodable image and loaded model whose forward pass yields a
nonempty score row of length `num_classes`, `predict` returns a `class_index`
that attains the maximum of the output scores — hence lies in
`[0, num_classes)` — and a confidence equal to the raw score at that index;
when the scores are softmax-normalized into `[0,1]`, the confidence lies in
`[0,1]`. -/
theorem predict_argmax_correct (s : DetectorState) (m : Model)
    (decoded x : List Rat)
    (hm : s.model = some m)
    (hx : preprocess_image s (some decoded) = some x)
    (hne : m.forward x ≠ []) :
    ∃ (name : String) (conf : Rat) (idx : Nat),
      predict s (some decoded) = .ok name conf idx (m.forward x) ∧
      idx < (m.forward x).length ∧
      (m.forward x)[idx]? = some conf ∧
      (∀ (j : Nat) (v : Rat), (m.forward x)[j]? = some v → v ≤ conf) ∧
      ((∀ v ∈ m.forward x, 0 ≤ v ∧ v ≤ 1) → 0 ≤ conf ∧ conf ≤ 1) := by
  rcases hfa : m.forward x with _ | ⟨p, rest⟩
  · exact absurd hfa hne
  have hpredict : predict s (some decoded) =
      .ok (labelFor s.class_indices (argmaxP rest (p, 0) 1).2)
        ((p :: rest).getD (argmaxP rest (p, 0) 1).2 0)
        ((argmaxP rest (p, 0) 1).2) (p :: rest) := by
    simp only [predict, hm, hx, hfa]
  obtain ⟨hget, hmax⟩ :=
    argmaxP_spec rest (p :: rest) 1 p 0 (by simp) (by simp) (by
      intro j hj v hv
      interval_cases j
      simp at hv
      exact le_of_eq hv.symm)
  set r := argmaxP rest (p, 0) 1 with hr
  have hlt : r.2 < (p :: rest).length := by
    by_contra hle
    push_neg at hle
    rw [List.getElem?_eq_none hle] at hget
    exact Option.noConfusion hget
  have hconf : (p :: rest).getD r.2 0 = r.1 := by
    rw [List.getD_eq_getElem?_getD, hget]
    rfl
  have hmem : r.1 ∈ (p :: rest) := by
    obtain ⟨hl, he⟩ := List.getElem?_eq_some.mp hget
    exact he ▸ List.getElem_mem hl
  refine ⟨labelFor s.class_indices r.2, (p :: rest).getD r.2 0, r.2, hpredict, hlt, ?_, ?_, ?_⟩
  · rw [hconf]; exact hget
  · intro j v hv
    rw [hconf]
    exact hmax j v hv
  · intro hball
    rw [hconf]
    exact hball r.1 hmem

/-- Witness for C3 at `demoState` and a one-pixel image: the prediction picks
class 1 with confidence 7/10. -/
theorem predict_argmax_correct_witness :
    ∃ (name : String) (conf : Rat) (idx : Nat),
      predict demoState (some [127]) = .ok name conf idx (demoModel.forward [127 / 255]) ∧
      idx < (demoModel.forward [127 / 255]).length ∧
      (demoModel.forward [127 / 255])[idx]? = some conf ∧
      (∀ (j : Nat) (v : Rat), (demoModel.forward [127 / 255])[j]? = some v → v ≤ conf) ∧
      ((∀ v ∈ demoModel.forward [127 / 255], 0 ≤ v ∧ v ≤ 1) → 0 ≤ conf ∧ conf ≤ 1) :=
  predict_argmax_correct demoState demoModel [127] [127 / 255] rfl rfl (by decide)

/-- C4: `predict` on a detector whose model handle is still `None` returns the
model-not-loaded error dictionary — for every image argument, without looking
at the image, and (being a total function) without raising; likewise the
subprocess-local detector's `predict` returns its `Model not loaded` error
dictionary (and the `.ok` there means the child proceeds to print it and exit
normally rather than raise). -/
theorem predict_unloaded_model (s : DetectorState) (decoded : Option (List Rat))
    (ci : Option LabelMap) (dec2 : Except String (List Rat))
    (h : s.model = none) :
    predict s decoded = .err "Model not loaded. Please load a model first." ∧
    childPredict none ci dec2 = .ok (.errObj "Model not loaded") := by
  constructor
  · simp only [predict, h]
  · rfl

/-- Witness for C4 at a freshly constructed detector. -/
theorem predict_unloaded_model_witness :
    predict (detectorInit none) (some [127]) =
      .err "Model not loaded. Please load a model first." ∧
    childPredict none none (.ok [127]) = .ok (.errObj "Model not loaded") :=
  predict_unloaded_model (detectorInit none) (some [127]) none (.ok [127]) rfl

/-- C5: when the external model load raises, `load_model` returns `False`
(rather than raising — the exception is caught at lines 115-118) and leaves
the model handle, the stored model path and the target image size exactly as
they were. -/
theorem load_model_failure_preserves_state (e path : String) (s : DetectorState) :
    (load_model (Except.error e) path s).1 = false ∧
    (load_model (Except.error e) path s).2.model = s.model ∧
    (load_model (Except.error e) path s).2.model_path = s.model_path ∧
    (load_model (Except.error e) path s).2.image_size = s.image_size :=
  ⟨rfl, rfl, rfl, rfl⟩

/-- C7: when reading the class-indices file raises (in particular when the
file is missing) and no label map had been loaded, the label map stays `None`
(the exception is caught at lines 131-132, nothing is raised), and every
subsequent successful `predict` reports the label "Unknown". -/
theorem load_labels_failure_unknown (e : String) (s : DetectorState)
    (decoded : Option (List Rat)) (h : s.class_indices = none) :
    (load_class_indices (Except.error e) s).class_indices = none ∧
    (∀ (name : String) (conf : Rat) (idx : Nat) (scores : List Rat),
      predict (load_class_indices (Except.error e) s) decoded = .ok name conf idx scores →
      name = "Unknown") := by
  refine ⟨h, ?_⟩
  intro name conf idx scores hok
  have hok2 : predict s decoded = .ok name conf idx scores := hok
  rcases hsm : s.model with _ | m
  · simp only [predict, hsm] at hok2
    exact PredOut.noConfusion hok2
  · rcases hpre : preprocess_image s decoded with _ | x
    · simp only [predict, hsm, hpre] at hok2
      exact PredOut.noConfusion hok2
    · rcases hfwd : m.forward x with _ | ⟨p, rest⟩
      · simp only [predict, hsm, hpre, hfwd] at hok2
        exact PredOut.noConfusion hok2
      · simp only [predict, hsm, hpre, hfwd, h, labelFor] at hok2
        injection hok2 with h1 h2 h3 h4
        exact h1.symm

/-- Witness for C7 at a loaded-model state with no label map. -/
theorem load_labels_failure_unknown_witness :
    (load_class_indices (Except.error "no such file") demoStateNoLabels).class_indices =
      none ∧
    (∀ (name : String) (conf : Rat) (idx : Nat) (scores : List Rat),
      predict (load_class_indices (Except.error "no such file") demoStateNoLabels)
          (some [127]) = .ok name conf idx scores →
      name = "Unknown") :=
  load_labels_failure_unknown "no such file" demoStateNoLabels (some [127]) rfl

theorem exists_three_of_length (l : List (Option Nat)) (h : l.length = 3) :
    ∃ a b c, l = [a, b, c] := by
  rcases l with _ | ⟨a, _ | ⟨b, _ | ⟨c, _ | ⟨d, tl⟩⟩⟩⟩
  · simp at h
  · simp at h
  · simp at h
  · exact ⟨a, b, c, rfl⟩
  · simp at h

/-- Channels-last case of the size inference: a stripped shape `[H, W, C]`
made of known dimensions with `C ∈ {1, 3}` yields `(W, H)`. -/
theorem inferImageSize_channels_last (l : List (Option Nat)) (h w c : Nat)
    (cur : Nat × Nat) (hsl : stripBatch l = [some h, some w, some c])
    (hc : c = 1 ∨ c = 3) :
    inferImageSize (some l) cur = (w, h) := by
  have hlen : 3 ≤ l.length := by
    rcases l with _ | ⟨a, tl⟩
    · simp [stripBatch] at hsl
    · rcases a with _ | n
      · simp only [stripBatch] at hsl
        simp [hsl]
      · simp only [stripBatch] at hsl
        simp [hsl]
  rcases hc with rfl | rfl <;> simp [inferImageSize, hsl, hlen]

/-- Channels-first case of the size inference: a stripped shape `[C, H, W]`
made of known dimensions with `C ∈ {1, 3}` and `W ∉ {1, 3}` (so channels-last
does not take precedence) yields `(W, H)`. -/
theorem inferImageSize_channels_first (l : List (Option Nat)) (c h w : Nat)
    (cur : Nat × Nat) (hsl : stripBatch l = [some c, some h, some w])
    (hw : ¬(w = 1 ∨ w = 3)) (hc : c = 1 ∨ c = 3) :
    inferImageSize (some l) cur = (w, h) := by
  have hlen : 3 ≤ l.length := by
    rcases l with _ | ⟨a, tl⟩
    · simp [stripBatch] at hsl
    · rcases a with _ | n
      · simp only [stripBatch] at hsl
        simp [hsl]
      · simp only [stripBatch] at hsl
        simp [hsl]
  push_neg at hw
  obtain ⟨hw1, hw3⟩ := hw
  rcases hc with rfl | rfl <;> simp [inferImageSize, hsl, hlen, hw1, hw3]

/-- Default case of the size inference: when the stripped shape is not a
three-element list of known dimensions with an end equal to 1 or 3, the
current size is kept. -/
theorem inferImageSize_default (shape? : Option (List (Option Nat)))
    (cur : Nat × Nat)
    (hno : ∀ l, shape? = some l → ∀ (h w c : Nat),
      ¬(stripBatch l = [some h, some w, some c] ∧ (c = 1 ∨ c = 3 ∨ h = 1 ∨ h = 3))) :
    inferImageSize shape? cur = cur := by
  rcases shape? with _ | l
  · rfl
  · have hno2 := hno l rfl
    simp only [inferImageSize]
    by_cases hlen : 3 ≤ l.length
    · rw [if_pos hlen]
      set sl := stripBatch l with hsl
      by_cases hA : sl.length = 3 ∧ (sl.getLast? = some (some 1) ∨ sl.getLast? = some (some 3))
      · rw [if_pos hA]
        obtain ⟨hlen3, hlast⟩ := hA
        obtain ⟨a, b, c, habc⟩ := exists_three_of_length sl hlen3
        rcases a with _ | a0
        · rw [habc]
          simp
        · rcases b with _ | b0
          · rw [habc]
            simp
          · rcases c with _ | c0
            · exfalso
              rw [habc] at hlast
              simp at hlast
            · exfalso
              rw [habc] at hlast
              simp at hlast
              refine hno2 a0 b0 c0 ⟨hsl.symm.trans habc, ?_⟩
              rcases hlast with rfl | rfl
              · exact Or.inl rfl
              · exact Or.inr (Or.inl rfl)
      · rw [if_neg hA]
        by_cases hB : sl.length = 3 ∧ (sl[0]? = some (some 1) ∨ sl[0]? = some (some 3))
        · rw [if_pos hB]
          obtain ⟨hlen3, hfirst⟩ := hB
          obtain ⟨a, b, c, habc⟩ := exists_three_of_length sl hlen3
          rcases b with _ | b0
          · rw [habc]
            simp
          · rcases c with _ | c0
            · rw [habc]
              simp
            · exfalso
              rw [habc] at hfirst
              simp only [List.getElem?_cons_zero, Option.some.injEq] at hfirst
              rcases hfirst with rfl | rfl
              · exact hno2 1 b0 c0
                  ⟨hsl.symm.trans habc, Or.inr (Or.inr (Or.inl rfl))⟩
              · exact hno2 3 b0 c0
                  ⟨hsl.symm.trans habc, Or.inr (Or.inr (Or.inr rfl))⟩
        · rw [if_neg hB]
    · rw [if_neg hlen]

/-- C6: after a successful `load_model` on a detector whose target size is the
default 224×224, the target size is computed from the declared input shape as
the spec describes: strip a leading batch dimension (`stripBatch`); if the
remaining shape is three known dimensions `[H, W, C]` with the trailing end
`C ∈ {1, 3}` (channels-last, taking precedence), the size becomes `(W, H)`;
otherwise if it is `[C, H, W]` with the leading end `C ∈ {1, 3}`
(channels-first), the size becomes `(W, H)`; and when no such shape exists —
no declared shape, wrong arity, unknown dimensions, or neither end in
`{1, 3}` — the size stays at the default 224×224. -/
theorem load_model_success_image_size (m : Model) (path : String)
    (s : DetectorState) (hdef : s.image_size = (224, 224)) :
    (load_model (Except.ok m) path s).1 = true ∧
    (∀ (l : List (Option Nat)) (h w c : Nat), m.input_shape = some l →
        stripBatch l = [some h, some w, some c] → (c = 1 ∨ c = 3) →
        (load_model (Except.ok m) path s).2.image_size = (w, h)) ∧
    (∀ (l : List (Option Nat)) (c h w : Nat), m.input_shape = some l →
        stripBatch l = [some c, some h, some w] → ¬(w = 1 ∨ w = 3) → (c = 1 ∨ c = 3) →
        (load_model (Except.ok m) path s).2.image_size = (w, h)) ∧
    ((∀ (l : List (Option Nat)), m.input_shape = some l → ∀ (h w c : Nat),
        ¬(stripBatch l = [some h, some w, some c] ∧ (c = 1 ∨ c = 3 ∨ h = 1 ∨ h = 3))) →
      (load_model (Except.ok m) path s).2.image_size = (224, 224)) := by
  have hsz : (load_model (Except.ok m) path s).2.image_size =
      inferImageSize m.input_shape s.image_size := rfl
  refine ⟨rfl, ?_, ?_, ?_⟩
  · intro l h w c hl hsl hc
    rw [hsz, hl]
    exact inferImageSize_channels_last l h w c s.image_size hsl hc
  · intro l c h w hl hsl hw hc
    rw [hsz, hl]
    exact inferImageSize_channels_first l c h w s.image_size hsl hw hc
  · intro hno
    rw [hsz, inferImageSize_default m.input_shape s.image_size hno]
    exact hdef

/-- A model declaring a 300×400 channels-last input. -/
def demoModelTall : Model :=
  { demoModel with input_shape := some [none, some 300, some 400, some 3] }

/-- Witness for C6 at a fresh detector and `demoModelTall`; its channels-last
case concludes the inferred size is `(400, 300)`. -/
theorem load_model_success_image_size_witness :
    (load_model (Except.ok demoModelTall) "model.keras" (detectorInit none)).1 = true ∧
    (∀ (l : List (Option Nat)) (h w c : Nat), demoModelTall.input_shape = some l →
        stripBatch l = [some h, some w, some c] → (c = 1 ∨ c = 3) →
        (load_model (Except.ok demoModelTall) "model.keras" (detectorInit none)).2.image_size =
          (w, h)) ∧
    (∀ (l : List (Option Nat)) (c h w : Nat), demoModelTall.input_shape = some l →
        stripBatch l = [some c, some h, some w] → ¬(w = 1 ∨ w = 3) → (c = 1 ∨ c = 3) →
        (load_model (Except.ok demoModelTall) "model.keras" (detectorInit none)).2.image_size =
          (w, h)) ∧
    ((∀ (l : List (Option Nat)), demoModelTall.input_shape = some l → ∀ (h w c : Nat),
        ¬(stripBatch l = [some h, some w, some c] ∧ (c = 1 ∨ c = 3 ∨ h = 1 ∨ h = 3))) →
      (load_model (Except.ok demoModelTall) "model.keras" (detectorInit none)).2.image_size =
        (224, 224)) :=
  load_model_success_image_size demoModelTall "model.keras" (detectorInit none) rfl

/-- C9: the `health` view returns HTTP 200 with `model_loaded: true` exactly
when the singleton detector holds a loaded model, and HTTP 503 with
`model_loaded: false` exactly when it does not (in particular before any model
load). -/
theorem health_model_loaded_iff (s : DetectorState) :
    (((health s).statusCode = 200 ∧ (health s).model_loaded = true) ↔ s.model ≠ none) ∧
    (((health s).statusCode = 503 ∧ (health s).model_loaded = false) ↔ s.model = none) := by
  rcases hm : s.model with _ | m <;> simp [health, hm]

/-- C2: in every state reachable by interleaved calls to `get_detector`, the
`PlantDiseaseDetector` constructor has run at most once, every completed call
returned the one constructed instance (identifier 0), and hence all completed
calls returned the same instance — the inner check-and-create runs under
`_detector_lock`, so concurrent callers never construct two instances. -/
theorem get_detector_singleton (s : GState) (hs : Reachable s) :
    s.constructed ≤ 1 ∧
    (∀ (t : Nat) (r : Option Nat), s.pc t = .done r → r = some 0) ∧
    (∀ (t1 t2 : Nat) (r1 r2 : Option Nat),
      s.pc t1 = .done r1 → s.pc t2 = .done r2 → r1 = r2) := by
  have hInv := reachable_inv hs
  refine ⟨hInv.con_le, hInv.done_val, ?_⟩
  intro t1 t2 r1 r2 h1 h2
  rw [hInv.done_val t1 r1 h1, hInv.done_val t2 r2 h2]

/-- States of a concrete six-step run: thread 0 takes the slow path, acquires
the lock, constructs, releases, re-reads, and returns instance 0. -/
def demoS1 : GState :=
  { initState with pc := Function.update initState.pc 0 .acquire }

def demoS2 : GState :=
  { demoS1 with lockHolder := some 0, pc := Function.update demoS1.pc 0 .innerCheck }

def demoS3 : GState :=
  { demoS2 with pc := Function.update demoS2.pc 0 .construct }

def demoS4 : GState :=
  { demoS3 with instanceVal := some demoS3.constructed,
                constructed := demoS3.constructed + 1,
                pc := Function.update demoS3.pc 0 .release }

def demoS5 : GState :=
  { demoS4 with lockHolder := none, pc := Function.update demoS4.pc 0 .finalRead }

def demoS6 : GState :=
  { demoS5 with pc := Function.update demoS5.pc 0 (.done demoS5.instanceVal) }

/-- Witness for C2 at the end of the concrete six-step run. -/
theorem get_detector_singleton_witness :
    demoS6.constructed ≤ 1 ∧
    (∀ (t : Nat) (r : Option Nat), demoS6.pc t = .done r → r = some 0) ∧
    (∀ (t1 t2 : Nat) (r1 r2 : Option Nat),
      demoS6.pc t1 = .done r1 → demoS6.pc t2 = .done r2 → r1 = r2) :=
  get_detector_singleton demoS6
    (Relation.ReflTransGen.tail
      (Relation.ReflTransGen.tail
        (Relation.ReflTransGen.tail
          (Relation.ReflTransGen.tail
            (Relation.ReflTransGen.tail
              (Relation.ReflTransGen.tail Relation.ReflTransGen.refl
                (Step.outerNone initState 0 rfl rfl))
              (Step.acquireLock demoS1 0 rfl rfl))
            (Step.innerNone demoS2 0 rfl rfl))
          (Step.doConstruct demoS3 0 rfl))
        (Step.releaseLock demoS4 0 rfl))
      (Step.finalReturn demoS5 0 rfl))

/-- C1 (`predict_via_subprocess` modelled from the spec, see its doc
comment): for every call and every observed child outcome, a child that does
not exit within the timeout yields the Timeout error result with the child
terminated; a child that exits non-zero, or whose stdout does not parse as
JSON, yields a SubprocessFailure error result carrying the child's output
text; and in every case the call evaluates to a structured `ParentResult`
value — parsed output or an `{error: ...}` result — never a propagated
exception. -/
theorem predict_via_subprocess_spec {α : Type} (parse : String → Option α)
    (image_path : String) (timeout : Nat) (model_path : Option String)
    (outcome : ChildOutcome) :
    (outcome = .timedOut →
      predict_via_subprocess parse image_path timeout model_path outcome =
        (.errorResult .timeout
          ("Prediction timed out after " ++ toString timeout ++ " seconds"), true)) ∧
    (∀ (code : Nat) (out : String), outcome = .exited code out →
      (code ≠ 0 ∨ parse out = none) →
      (predict_via_subprocess parse image_path timeout model_path outcome).1 =
        .errorResult .subprocessFailure out) ∧
    ((∃ v, (predict_via_subprocess parse image_path timeout model_path outcome).1 =
        .parsed v) ∨
      (∃ kind msg,
        (predict_via_subprocess parse image_path timeout model_path outcome).1 =
          .errorResult kind msg)) := by
  refine ⟨?_, ?_, ?_⟩
  · rintro rfl
    rfl
  · rintro code out rfl hfail
    rcases hfail with hc | hp
    · simp [predict_via_subprocess, hc]
    · by_cases hc0 : code = 0
      · subst hc0
        simp [predict_via_subprocess, hp]
      · simp [predict_via_subprocess, hc0]
  · rcases outcome with _ | ⟨code, out⟩
    · exact Or.inr ⟨SubprocErrKind.timeout, _, rfl⟩
    · by_cases hc0 : code = 0
      · subst hc0
        rcases hp : parse out with _ | v
        · exact Or.inr ⟨SubprocErrKind.subprocessFailure, out,
            by simp [predict_via_subprocess, hp]⟩
        · exact Or.inl ⟨v, by simp [predict_via_subprocess, hp]⟩
      · exact Or.inr ⟨SubprocErrKind.subprocessFailure, out,
          by simp [predict_via_subprocess, hc0]⟩

/-- Witness for C1: a timed-out child at a concrete call. -/
theorem predict_via_subprocess_spec_witness :
    predict_via_subprocess (fun _ => (none : Option Unit)) "leaf.jpg" 300 none
        .timedOut =
      (.errorResult .timeout
        ("Prediction timed out after " ++ toString 300 ++ " seconds"), true) :=
  (predict_via_subprocess_spec (fun _ => (none : Option Unit)) "leaf.jpg" 300 none
    .timedOut).1 rfl

/-- C8, against the intended script (the committed
`inference_subprocess.py` does not parse — see the section comment above
`childMain` — so the property the spec states is false of the repository as
committed: every actual invocation exits 1 with an empty stdout): the
repaired child writes exactly one JSON object to stdout on every invocation,
whichever path it takes. Note also that the child has no process-wide default
paths: `childMain` loads nothing when the model argument is omitted, as C10
makes precise. -/
theorem child_prints_single_json (env : ChildEnv) :
    (childMain env).prints.length = 1 := by
  have hrest : ∀ (img : String) (m? : Option Model) (cp : Option String),
      (childRest env img m? cp).prints.length = 1 := by
    intro img m? cp
    cases hcp : childPredict m? (childLoadLabels env cp) (env.decodeImage img) <;>
      simp [childRest, hcp]
  rcases h1 : env.argv[1]? with _ | img
  · simp [childMain, h1]
  · rcases h2 : env.importError with _ | e
    · rcases h3 : env.argv[2]? with _ | p
      · simp [childMain, h1, h2, h3, hrest]
      · by_cases hp : p = ""
        · subst hp
          simp [childMain, h1, h2, h3, hrest]
        · by_cases hex : env.fileExists p
          · rcases h4 : env.loadModel p with e2 | mm
            · simp [childMain, h1, h2, h3, hp, hex, h4]
            · simp [childMain, h1, h2, h3, hp, hex, h4, hrest]
          · simp [childMain, h1, h2, h3, hp, hex, hrest]
    · simp [childMain, h1, h2]

/-- C10, against the intended script (see `child_prints_single_json` for why
the committed script itself cannot exhibit this or any runtime behaviour):
with the model-path argument omitted, empty, or naming a nonexistent file,
the child never loads a model, prints exactly the JSON object
`{"error": "Model not loaded"}`, and exits with status 0 — the same exit
status as a successful prediction, so the exit status alone does not
distinguish the two. -/
theorem child_no_model_error_exit_zero (env : ChildEnv) (img : String)
    (himg : env.argv[1]? = some img)
    (himp : env.importError = none)
    (hmp : env.argv[2]? = none ∨ env.argv[2]? = some "" ∨
      ∃ p, env.argv[2]? = some p ∧ env.fileExists p = false) :
    childMain env =
      { prints := [.errObj "Model not loaded"], exitCode := 0, modelLoaded := false } := by
  have hrest : ∀ cp, childRest env img none cp =
      { prints := [.errObj "Model not loaded"], exitCode := 0, modelLoaded := false } := by
    intro cp
    rfl
  rcases hmp with h | h | ⟨p, hp, hex⟩
  · simp [childMain, himg, himp, h, hrest]
  · simp [childMain, himg, himp, h, hrest]
  · by_cases hpe : p = ""
    · subst hpe
      simp [childMain, himg, himp, hp, hrest]
    · simp [childMain, himg, himp, hp, hpe, hex, hrest]

/-- A concrete child environment invoked as
`python inference_subprocess.py leaf.jpg` — no model path at all. -/
def demoChildEnv : ChildEnv :=
  { argv := ["inference_subprocess.py", "leaf.jpg"]
    importError := none
    fileExists := fun _ => false
    loadModel := fun _ => .error "unreachable"
    readLabels := fun _ => none
    decodeImage := fun _ => .ok [127] }

/-- Witness for C10 at `demoChildEnv`. -/
theorem child_no_model_error_exit_zero_witness :
    childMain demoChildEnv =
      { prints := [.errObj "Model not loaded"], exitCode := 0, modelLoaded := false } :=
  child_no_model_error_exit_zero demoChildEnv "leaf.jpg" rfl rfl (Or.inl rfl)

end PlantLeafDisease


